import Mathlib

/-!
Verification of the lumina-gallery benchmark tooling (timeline store,
comparison engine, snapshot extraction), shallowly embedded from
`scripts/atlas_benchmark_collector.py`, `scripts/optimization_tracker.py`
and `scripts/atlas_metrics_table.py`.  Python floats are modelled as `ℚ`,
Python strings as `List Char`, Python dicts (where key names matter) as
association lists.
-/

namespace Lumina

/-! ## String utilities (Python `in`, `.lower()`, `.endswith`) -/

/-- `isPrefixList p s` is Python-style list/str startswith: `p` is an initial
segment of `s`. -/
def isPrefixList : List Char → List Char → Bool
  | [], _ => true
  | _ :: _, [] => false
  | a :: p, b :: s => a = b && isPrefixList p s

/-- Python substring test `needle in hay`. -/
def containsSub (needle : List Char) : List Char → Bool
  | [] => isPrefixList needle []
  | h :: t => isPrefixList needle (h :: t) || containsSub needle t

/-- Python `s.lower()` (per-character). -/
def toLowerStr (s : List Char) : List Char := s.map Char.toLower

/-- Python `s.endswith(suffix)`. -/
def endsWithList (s suffix : List Char) : Bool :=
  isPrefixList suffix.reverse s.reverse

/-! ## Python `enumerate`, `pop`, sorted-descending removal -/

/-- Python `enumerate(l, start)`. -/
def enumIdx (start : Nat) : List α → List (Nat × α)
  | [] => []
  | a :: l => (start, a) :: enumIdx (start + 1) l

/-- Insert into a descending-sorted list, keeping it descending. -/
def insertDesc (i : Int) : List Int → List Int
  | [] => [i]
  | j :: l => if j ≤ i then i :: j :: l else j :: insertDesc i l

/-- Python `sorted(l, reverse=True)` (insertion sort, descending). -/
def sortDesc : List Int → List Int
  | [] => []
  | i :: l => insertDesc i (sortDesc l)

/-- Python's `for i in sorted(indices, reverse=True): l.pop(i)`:
the source removes indices in descending order so earlier removals do not
shift the positions of later ones. -/
def pythonPops (l : List α) (indices : List Int) : List α :=
  (sortDesc indices).foldl (fun acc i => acc.eraseIdx i.toNat) l

/-- Keep the elements of `l` whose position satisfies `p` (positions taken
in the original list); used as the specification side of index removal. -/
def filterIdx (p : Nat → Bool) : List α → List α
  | [] => []
  | a :: l =>
    if p 0 then a :: filterIdx (fun n => p (n + 1)) l
    else filterIdx (fun n => p (n + 1)) l

/-! ## Timeline data model (`atlas_benchmark_collector.py`) -/

/-- Collection mode of a timeline entry: the `--mode` choices
`optimization`, `baseline`, `update_baseline` of the collector CLI. -/
inductive Mode where
  | optimization
  | baseline
  | update_baseline
deriving DecidableEq, Repr

/-- One timeline entry, restricted to the fields the mutating operations
inspect: `mode`, `optimization` (the label) and `git_commit`. -/
structure Entry where
  mode : Mode
  optimization : List Char
  git_commit : List Char
deriving DecidableEq, Repr

/-- The baseline predicate of `_handle_baseline_mode` /
`_handle_update_baseline_mode`:
`entry.get("mode") == "baseline" or "baseline" in entry.get("optimization", "").lower()`. -/
def isBaselineEntry (e : Entry) : Bool :=
  decide (e.mode = Mode.baseline) ||
    containsSub "baseline".toList (toLowerStr e.optimization)

/-- Indices (from `start`) of the elements satisfying `pred`, built with
`enumerate` as in `_handle_baseline_mode` and `clean_experimental_entries`. -/
def matchIdxsFrom (pred : α → Bool) (start : Nat) (l : List α) : List Int :=
  ((enumIdx start l).filter (fun p => pred p.2)).map (fun p => (p.1 : Int))

/-- Indices of the entries satisfying the baseline predicate, built with
`enumerate` as in `_handle_baseline_mode` (lines 487-490). -/
def baselineIndices (timeline : List Entry) : List Int :=
  matchIdxsFrom isBaselineEntry 0 timeline

/-- `_handle_baseline_mode` (lines 484-501): remove every entry at a
baseline index by popping in descending order, then `timeline.insert(0, entry)`. -/
def handle_baseline_mode (timeline : List Entry) (e : Entry) : List Entry :=
  e :: pythonPops timeline (baselineIndices timeline)

/-- `_handle_update_baseline_mode` (lines 503-524): `baseline_index`
defaults to `0` and is set to the first index satisfying the baseline
predicate; a non-empty timeline has that slot overwritten in place, an
empty one gets the entry appended. -/
def handle_update_baseline_mode (timeline : List Entry) (e : Entry) :
    List Entry :=
  let baselineIndex :=
    match (enumIdx 0 timeline).find? (fun p => isBaselineEntry p.2) with
    | some p => p.1
    | none => 0
  if timeline.isEmpty then timeline ++ [e]
  else timeline.set baselineIndex e

/-- Outcome of `remove_timeline_entries`: the early return on an empty
timeline, the rejection of invalid indices, or the updated timeline. -/
inductive RemoveResult where
  | noEntries
  | invalidIndices (bad : List Int)
  | removed (timeline : List Entry)
deriving DecidableEq, Repr

/-- Whether the outcome is the invalid-indices rejection. -/
def RemoveResult.isInvalid : RemoveResult → Bool
  | .invalidIndices _ => true
  | _ => false

/-- `remove_timeline_entries` (lines 411-458), with the backup and the
confirmation prompt (I/O) elided: empty timeline returns early; any index
outside `[0, len)` rejects the whole request; otherwise the indices are
popped in descending order. -/
def remove_timeline_entries (timeline : List Entry) (indices : List Int) :
    RemoveResult :=
  if timeline.isEmpty then .noEntries
  else if (indices.filter
      (fun i => decide (i < 0) || decide ((timeline.length : Int) ≤ i))).isEmpty then
    .removed (pythonPops timeline indices)
  else
    .invalidIndices (indices.filter
      (fun i => decide (i < 0) || decide ((timeline.length : Int) ≤ i)))

/-- `clean_experimental_entries` (lines 460-482): collect the indices whose
`git_commit` contains `"-dirty"` and hand them to
`remove_timeline_entries`; empty timeline and no-dirty-entries return early. -/
def clean_experimental_entries (timeline : List Entry) : List Entry :=
  if timeline.isEmpty then timeline
  else if (matchIdxsFrom (fun e => containsSub "-dirty".toList e.git_commit) 0
      timeline).isEmpty then
    timeline
  else
    match remove_timeline_entries timeline
      (matchIdxsFrom (fun e => containsSub "-dirty".toList e.git_commit) 0
        timeline) with
    | .removed timeline2 => timeline2
    | _ => timeline

/-- The label/commit payload of a collected entry; `collect_benchmark_result`
stamps the mode onto it (line 139: `"mode": mode`). -/
structure EntryData where
  optimization : List Char
  git_commit : List Char
deriving DecidableEq, Repr

/-- Build the timeline entry of `collect_benchmark_result` for a given mode. -/
def mkEntry (d : EntryData) (m : Mode) : Entry :=
  ⟨m, d.optimization, d.git_commit⟩

/-- One mutating operation on the timeline store: collection in one of the
three modes (lines 148-159), indexed removal, or pruning of dirty entries. -/
inductive CollectorOp where
  | collect (d : EntryData) (m : Mode)
  | removeEntries (indices : List Int)
  | cleanExperimental
deriving Repr

/-- The timeline state after one operation (a rejected removal leaves the
persisted timeline untouched, so its post-state is the input). -/
def applyOp (timeline : List Entry) : CollectorOp → List Entry
  | .collect d .optimization => timeline ++ [mkEntry d .optimization]
  | .collect d .baseline => handle_baseline_mode timeline (mkEntry d .baseline)
  | .collect d .update_baseline =>
      handle_update_baseline_mode timeline (mkEntry d .update_baseline)
  | .removeEntries indices =>
      match remove_timeline_entries timeline indices with
      | .removed timeline2 => timeline2
      | _ => timeline
  | .cleanExperimental => clean_experimental_entries timeline

/-- Number of entries collected in baseline mode. -/
def countBaseline (timeline : List Entry) : Nat :=
  timeline.countP (fun e => decide (e.mode = Mode.baseline))

/-! ## Comparison engine (`optimization_tracker.py`) -/

/-- ANSI colors used by `_format_change_indicator`. -/
inductive Color where
  | red
  | green
  | yellow
  | blue
  | gray
deriving DecidableEq, Repr

/-- Direction arrow attached to a change indicator. -/
inductive Arrow where
  | up
  | down
  | approx
deriving DecidableEq, Repr

/-- The change indicator `_format_change_indicator` renders: the empty
string (zero baseline), the gray `"0.0"` (no change), or a colored
signed-diff-with-arrow-and-percent cell; `percentChange` keeps the signed
`(current - baseline) / baseline * 100` the source computes. -/
inductive ChangeIndicator where
  | empty
  | zeroChange
  | change (color : Color) (arrow : Arrow) (absDiff : ℚ) (percentChange : ℚ)
deriving DecidableEq, Repr

/-- Python `metric_name.endswith('SumMs')`, the time-metric test. -/
def isTimeMetric (metricName : List Char) : Bool :=
  endsWithList metricName "SumMs".toList

/-- `_format_change_indicator(current, baseline, metric_name)`
(lines 297-354), with the string rendering abstracted into
`ChangeIndicator` but every branch kept as in the source. -/
def format_change_indicator (current baseline : ℚ) (metricName : List Char) :
    ChangeIndicator :=
  if baseline = 0 then .empty
  else if current = baseline then .zeroChange
  else
    let absDiff := current - baseline
    let percentChange := absDiff / baseline * 100
    if isTimeMetric metricName then
      if absDiff < 0 then
        if |percentChange| < 15 then .change .gray .down absDiff percentChange
        else .change .green .down absDiff percentChange
      else
        if |percentChange| < 15 then .change .yellow .up absDiff percentChange
        else if 30 ≤ |percentChange| then .change .red .up absDiff percentChange
        else .change .red .up absDiff percentChange
    else
      if |percentChange| < 5 then .change .gray .approx absDiff percentChange
      else
        .change .blue (if 0 < absDiff then .up else .down) absDiff percentChange

/-- Significance verdict of §3 of the spec, read off a rendered
indicator: green = meaningful speedup, red = significant slowdown, blue =
the neutral `CHANGED` label of non-time metrics, everything else (blank,
zero, gray, yellow) = noise. -/
inductive Classification where
  | improved
  | regressed
  | changed
  | noise
deriving DecidableEq, Repr

/-- Map an indicator to the spec's classification. -/
def classificationOf : ChangeIndicator → Classification
  | .empty => .noise
  | .zeroChange => .noise
  | .change c _ _ _ =>
    match c with
    | .green => .improved
    | .red => .regressed
    | .blue => .changed
    | _ => .noise

/-- The percent delta an indicator reports: none for the blank indicator,
`0` for the gray `"0.0"`, the signed percentage otherwise. -/
def percentOf : ChangeIndicator → Option ℚ
  | .empty => none
  | .zeroChange => some 0
  | .change _ _ _ p => some p

/-! ## Device consistency checker (`optimization_tracker.py` lines 175-221) -/

/-- The device descriptor `_check_device_consistency` extracts per run. -/
structure DeviceCtx where
  model : List Char
  brand : List Char
  androidSdk : Int
  cpuCores : Int
  cpuMaxFreq : Int
deriving DecidableEq, Repr

/-- Which field an inconsistency message names. -/
inductive DiffField where
  | model
  | androidSdk
  | cpuMaxFreq
deriving DecidableEq, Repr

/-- One inconsistency: the 0-based run index compared against run 0, and
the first field found to differ (the source's `if`/`elif` chain). -/
structure Inconsistency where
  runIndex : Nat
  field : DiffField
deriving DecidableEq, Repr

/-- The comparison of one run against the first: model, then SDK, then
clock frequency with the `> 100000000` (100 MHz) tolerance, as the
`if`/`elif` chain of lines 200-209. -/
def deviceDiff (first : DeviceCtx) (p : Nat × DeviceCtx) :
    Option Inconsistency :=
  if p.2.model ≠ first.model then some ⟨p.1, .model⟩
  else if p.2.androidSdk ≠ first.androidSdk then some ⟨p.1, .androidSdk⟩
  else if 100000000 < (p.2.cpuMaxFreq - first.cpuMaxFreq).natAbs then
    some ⟨p.1, .cpuMaxFreq⟩
  else none

/-- `_check_device_consistency` on the extracted device descriptors:
returns early with fewer than two runs, otherwise compares
`enumerate(devices[1:], 1)` against `devices[0]`. -/
def check_device_consistency (devices : List DeviceCtx) :
    List Inconsistency :=
  match devices with
  | [] => []
  | [_] => []
  | first :: rest => (enumIdx 1 rest).filterMap (deviceDiff first)

/-! ## Metrics table formatter (`atlas_metrics_table.py` lines 33-55) -/

/-- A rendered table cell: either the bare `value ms` (zero value or
missing/zero baseline) or a colored value with emoji and percent change. -/
inductive TableCell where
  | plain (value : ℚ)
  | colored (value : ℚ) (color : Color) (changePercent : ℚ)
deriving DecidableEq, Repr

/-- `format_value_with_change(current, baseline)`: zero current or
missing/zero baseline yields the plain cell, otherwise the percent change
is colored red above +5, green below -5, yellow in between. -/
def format_value_with_change (current : ℚ) (baseline : Option ℚ) :
    TableCell :=
  if current = 0 then .plain current
  else
    match baseline with
    | none => .plain current
    | some b =>
      if b = 0 then .plain current
      else
        let changePercent := (current - b) / b * 100
        if 5 < changePercent then .colored current .red changePercent
        else if changePercent < -5 then .colored current .green changePercent
        else .colored current .yellow changePercent

/-! ## Snapshot extraction and collection (`atlas_benchmark_collector.py`) -/

/-- Values stored in the dicts `_extract_test_metrics` returns; the
association-list representation keeps the literal key names, so a Python
`KeyError` is observable as a failed lookup. -/
inductive MVal where
  | bool (b : Bool)
  | int (n : Int)
  | num (q : ℚ)
  | dict (d : List (String × MVal))
deriving Repr

/-- Python `d[k]` on an association-list dict: `none` is a `KeyError`. -/
def dget (d : List (String × MVal)) (k : String) : Option MVal :=
  (d.find? (fun p => p.1 = k)).map (fun p => p.2)

/-- One metric record of the raw benchmark JSON as the collector reads it:
`test_result["metrics"][name]["median"]` is accessed by direct subscript,
so `median` is a required field here. -/
structure CMetric where
  median : ℚ
deriving Repr

/-- One sampled-metric record; `P50`/`P90`/`P99` are read with
`.get(_, 0)`, so each is optional. -/
structure CSampled where
  p50 : Option ℚ
  p90 : Option ℚ
  p99 : Option ℚ
deriving Repr

/-- One entry of the raw result's `benchmarks` list as the collector reads
it: `benchmark["name"]` and `test_result["metrics"]` are direct
subscripts (required), `sampledMetrics`, `totalRunTimeNs` and
`repeatIterations` are `.get` with defaults. -/
structure CBenchmark where
  name : String
  metrics : List (String × CMetric)
  sampledMetrics : List (String × CSampled)
  totalRunTimeNs : Option Int
  repeatIterations : Option Int
deriving Repr

/-- The raw benchmark result: `benchmark_data.get("benchmarks", [])`. -/
structure CRawData where
  benchmarks : List CBenchmark
deriving Repr

/-- Python `k in d` / `d[k]` lookup on a name-keyed association list. -/
def lookupKey (d : List (String × α)) (k : String) : Option α :=
  (d.find? (fun p => p.1 = k)).map (fun p => p.2)

/-- The tracked atlas profile metrics (`self.metrics.keys()` of
`_load_profile`, profile `atlas`). -/
def atlasMetricNames : List String :=
  ["PhotoLODProcessor.scaleBitmapSumMs",
   "AtlasGenerator.softwareCanvasSumMs",
   "PhotoLODProcessor.loadBitmapSumMs",
   "AtlasGenerator.createAtlasBitmapSumMs",
   "AtlasManager.updateVisibleCellsSumMs",
   "AtlasManager.generateAtlasSumMs",
   "AtlasManager.selectLODLevelSumMs",
   "PhotoLODProcessor.diskOpenInputStreamSumMs",
   "PhotoLODProcessor.diskReadFileHeaderSumMs",
   "PhotoLODProcessor.memoryDecodeBoundsSumMs",
   "PhotoLODProcessor.memoryDecodeBitmapSumMs",
   "PhotoLODProcessor.memorySampleSizeCalcSumMs",
   "PhotoScaler.scaleSumMs",
   "PhotoScaler.createScaledBitmapSumMs",
   "PhotoScaler.createCroppedBitmapSumMs",
   "PhotoScaler.calculateDimensionsSumMs",
   "Atlas.bitmapAllocateSumMs",
   "Atlas.bitmapRecycleSumMs",
   "Atlas.atlasCleanupSumMs",
   "Atlas.processedPhotoCleanupSumMs",
   "TexturePacker.packAlgorithmSumMs",
   "TexturePacker.sortImagesSumMs",
   "TexturePacker.packSingleImageSumMs",
   "TexturePacker.findShelfFitSumMs",
   "TexturePacker.createNewShelfSumMs"]

/-- `self.frame_metrics`. -/
def frameMetricNames : List String :=
  ["frameDurationCpuMs", "frameOverrunMs"]

/-- `self.memory_metrics`. -/
def memoryMetricNames : List String :=
  ["memoryGpuMaxKb", "memoryHeapSizeMaxKb",
   "memoryRssAnonMaxKb", "memoryRssFileMaxKb"]

/-- `_extract_test_metrics` (lines 169-212).  Note the shape of the
not-found return (line 178): its empty map is stored under the key
`"atlas_metrics"`, not `"profile_metrics"`. -/
def extract_test_metrics (data : CRawData) (testName : String) :
    List (String × MVal) :=
  match data.benchmarks.find? (fun b => b.name = testName) with
  | none =>
    [("found", .bool false), ("atlas_metrics", .dict []),
     ("frame_metrics", .dict []), ("memory_metrics", .dict [])]
  | some t =>
    let profileMetrics : List (String × MVal) :=
      atlasMetricNames.map (fun m =>
        (m, .num (match lookupKey t.metrics m with
                  | some r => r.median
                  | none => 0)))
    let frameMetrics : List (String × MVal) :=
      frameMetricNames.filterMap (fun m =>
        (lookupKey t.sampledMetrics m).map (fun s =>
          (m, .dict [("P50", .num (s.p50.getD 0)),
                     ("P90", .num (s.p90.getD 0)),
                     ("P99", .num (s.p99.getD 0))])))
    let memoryMetrics : List (String × MVal) :=
      memoryMetricNames.filterMap (fun m =>
        (lookupKey t.metrics m).map (fun r => (m, .num r.median)))
    [("found", .bool true),
     ("total_runtime_ns", .int (t.totalRunTimeNs.getD 0)),
     ("iterations", .int (t.repeatIterations.getD 0)),
     ("profile_metrics", .dict profileMetrics),
     ("frame_metrics", .dict frameMetrics),
     ("memory_metrics", .dict memoryMetrics)]

/-- A Python exception escaping a modelled operation. -/
inductive PyErr where
  | keyError (key : String)
  | typeError
deriving DecidableEq, Repr

/-- The timeline-entry payload `collect_benchmark_result` assembles
(lines 136-146), restricted to the extracted parts. -/
structure CollectedEntry where
  zoomTest : List (String × MVal)
  panTest : List (String × MVal)
  totalOptimizationTime : ℚ
deriving Repr

/-- The extraction steps of `collect_benchmark_result` (lines 128-146),
after the interactive prompts: extract both tests, then build the entry
whose `total_optimization_time` reads
`zoom_metrics["profile_metrics"].get("AtlasManager.generateAtlasSumMs", 0)`
— a direct subscript on the zoom dict, hence a possible `KeyError`. -/
def collect_entry (data : CRawData) : Except PyErr CollectedEntry :=
  let zoomMetrics :=
    extract_test_metrics data "atlasGenerationThroughZoomInteractions"
  let panMetrics :=
    extract_test_metrics data "atlasGenerationThroughPanInteractions"
  match dget zoomMetrics "profile_metrics" with
  | none => .error (.keyError "profile_metrics")
  | some (.dict pm) =>
    .ok { zoomTest := zoomMetrics, panTest := panMetrics,
          totalOptimizationTime :=
            match dget pm "AtlasManager.generateAtlasSumMs" with
            | some (.num q) => q
            | _ => 0 }
  | some _ => .error .typeError

/-! ## Tracker metric lookup (`optimization_tracker.py` lines 274-282) -/

/-- A metric record as `_get_metric_value` reads it:
`metrics[metric_name].get("median", 0.0)`, so `median` is optional. -/
structure TMetric where
  median : Option ℚ
deriving DecidableEq, Repr

/-- One benchmark as `_get_metric_value` reads it: `benchmark.get("name")`
(may be absent) and `benchmark.get("metrics", {})`. -/
structure TBenchmark where
  name : Option String
  metrics : Option (List (String × TMetric))
deriving Repr

/-- Raw data for the tracker: `benchmark_data.get("benchmarks", [])`. -/
structure TRawData where
  benchmarks : List TBenchmark
deriving Repr

/-- Python `benchmark.get("name") == benchmark_name` (a `None` name never
equals a string). -/
def nameMatches (b : TBenchmark) (benchmarkName : String) : Bool :=
  match b.name with
  | some s => decide (s = benchmarkName)
  | none => false

/-- The loop body of `_get_metric_value`: scan the benchmarks; on a name
match, return the metric's `median` (default `0.0`) if the metric is
present, otherwise keep scanning; fall through to `0.0`. -/
def get_metric_value_go (benchmarkName metricName : String) :
    List TBenchmark → ℚ
  | [] => 0
  | b :: rest =>
    if nameMatches b benchmarkName then
      match lookupKey (b.metrics.getD []) metricName with
      | some r => r.median.getD 0
      | none => get_metric_value_go benchmarkName metricName rest
    else get_metric_value_go benchmarkName metricName rest

/-- `_get_metric_value(benchmark_data, benchmark_name, metric_name)`. -/
def get_metric_value (data : TRawData) (benchmarkName metricName : String) :
    ℚ :=
  get_metric_value_go benchmarkName metricName data.benchmarks

/-! ## Timeline loading (`_load_timeline` and `load_timeline`) -/

/-- The state of the persisted timeline file for one profile: missing, or
present with content that `json.load` either parses into entries or
rejects. -/
inductive PersistedTimeline where
  | missing
  | malformed
  | wellFormed (entries : List Entry)
deriving Repr

/-- Errors a loader can surface. -/
inductive LoadErr where
  | corruptData
deriving DecidableEq, Repr

/-- `AtlasBenchmarkCollector._load_timeline` (lines 230-235): a missing
file yields `[]`; an existing file is handed to `json.load`, whose parse
error propagates (there is no surrounding `try`). -/
def collector_load_timeline (p : PersistedTimeline) :
    Except LoadErr (List Entry) :=
  match p with
  | .missing => .ok []
  | .malformed => .error .corruptData
  | .wellFormed entries => .ok entries

/-- `atlas_metrics_table.load_timeline` (lines 25-31): the
`try`/`except (FileNotFoundError, json.JSONDecodeError)` returns `[]` for
a missing file and for a parse failure alike, so no error ever escapes. -/
def table_load_timeline (p : PersistedTimeline) :
    Except LoadErr (List Entry) :=
  match p with
  | .missing => .ok []
  | .malformed => .ok []
  | .wellFormed entries => .ok entries

/-! ## Properties of `sortDesc` -/

lemma insertDesc_perm (i : Int) (l : List Int) :
    List.Perm (insertDesc i l) (i :: l) := by
  induction l with
  | nil => simp [insertDesc]
  | cons j l ih =>
    by_cases h : j ≤ i
    · simp [insertDesc, h]
    · simp only [insertDesc, if_neg h]
      exact ((ih.cons j).trans (List.Perm.swap i j l))

lemma sortDesc_perm (l : List Int) : List.Perm (sortDesc l) l := by
  induction l with
  | nil => simp [sortDesc]
  | cons i l ih => exact (insertDesc_perm i (sortDesc l)).trans (ih.cons i)

lemma insertDesc_pairwise (i : Int) (l : List Int)
    (h : l.Pairwise (fun a b => b ≤ a)) :
    (insertDesc i l).Pairwise (fun a b => b ≤ a) := by
  induction l with
  | nil => simp [insertDesc]
  | cons j l ih =>
    rw [List.pairwise_cons] at h
    obtain ⟨hj, hl⟩ := h
    by_cases hji : j ≤ i
    · simp only [insertDesc, if_pos hji]
      refine List.Pairwise.cons ?_ (List.Pairwise.cons hj hl)
      intro x hx
      rcases List.mem_cons.mp hx with rfl | hx
      · exact hji
      · exact le_trans (hj x hx) hji
    · simp only [insertDesc, if_neg hji]
      refine List.Pairwise.cons ?_ (ih hl)
      intro x hx
      rcases List.mem_cons.mp ((insertDesc_perm i l).mem_iff.mp hx) with rfl | hx
      · exact le_of_not_le hji
      · exact hj x hx

lemma sortDesc_pairwise (l : List Int) :
    (sortDesc l).Pairwise (fun a b => b ≤ a) := by
  induction l with
  | nil => simp [sortDesc]
  | cons i l ih => exact insertDesc_pairwise i (sortDesc l) ih

/-! ## Properties of `filterIdx` -/

lemma filterIdx_congr {p q : Nat → Bool} (l : List α)
    (h : ∀ n, p n = q n) : filterIdx p l = filterIdx q l := by
  induction l generalizing p q with
  | nil => rfl
  | cons a l ih =>
    simp only [filterIdx, h 0]
    rw [ih (fun n => h (n + 1))]

lemma filterIdx_true (l : List α) :
    filterIdx (fun _ => true) l = l := by
  induction l with
  | nil => rfl
  | cons a l ih => simpa [filterIdx] using ih

lemma filterIdx_eraseIdx (l : List α) (i : Nat) (p q : Nat → Bool)
    (hi : i < l.length) (hpi : p i = false)
    (hlt : ∀ n, n < i → q n = p n)
    (hge : ∀ n, i ≤ n → q n = p (n + 1)) :
    filterIdx q (l.eraseIdx i) = filterIdx p l := by
  induction l generalizing i p q with
  | nil => simp at hi
  | cons a l ih =>
    cases i with
    | zero =>
      simp only [List.eraseIdx]
      have hq : ∀ n, q n = p (n + 1) := fun n => hge n (Nat.zero_le n)
      rw [filterIdx_congr l hq]
      simp [filterIdx, hpi]
    | succ i =>
      simp only [List.eraseIdx]
      have h0 : q 0 = p 0 := hlt 0 (Nat.succ_pos i)
      simp only [filterIdx, h0]
      have hrec : filterIdx (fun n => q (n + 1)) (l.eraseIdx i) =
          filterIdx (fun n => p (n + 1)) l := by
        refine ih i (fun n => p (n + 1)) (fun n => q (n + 1))
          (by simpa using hi) hpi ?_ ?_
        · intro n hn
          exact hlt (n + 1) (by omega)
        · intro n hn
          exact hge (n + 1) (by omega)
      rw [hrec]

/-- Eliminating positions whose index is in a strictly descending, valid,
duplicate-free index list, one `pop` at a time, keeps exactly the
positions outside the list. -/
lemma foldl_eraseIdx_eq_filterIdx (idxs : List Int) (l : List α)
    (hsort : idxs.Pairwise (fun a b => b ≤ a)) (hnd : idxs.Nodup)
    (hvalid : ∀ i ∈ idxs, 0 ≤ i ∧ i < (l.length : Int)) :
    idxs.foldl (fun acc i => acc.eraseIdx i.toNat) l =
      filterIdx (fun n => !(decide ((n : Int) ∈ idxs))) l := by
  induction idxs generalizing l with
  | nil =>
    simp only [List.foldl_nil]
    rw [filterIdx_congr l (q := fun _ => true) (by simp), filterIdx_true]
  | cons i rest ih =>
    rcases hvalid i (List.mem_cons_self i rest) with ⟨hi0, hilen⟩
    have hitn : i.toNat < l.length := by omega
    have hrest_lt : ∀ j ∈ rest, j < i := by
      intro j hj
      have hle : j ≤ i := List.rel_of_pairwise_cons hsort hj
      have hne : j ≠ i := by
        intro h
        exact (List.nodup_cons.mp hnd).1 (h ▸ hj)
      omega
    simp only [List.foldl_cons]
    rw [ih (l.eraseIdx i.toNat) (List.Pairwise.of_cons hsort)
      (List.nodup_cons.mp hnd).2 ?_]
    · refine filterIdx_eraseIdx l i.toNat _ _ hitn ?_ ?_ ?_
      · have hcast : ((i.toNat : Int)) = i := by omega
        simp [hcast]
      · intro n hn
        have hne : (n : Int) ≠ i := by omega
        simp [List.mem_cons, hne]
      · intro n hn
        have h1 : ¬ ((n : Int)) ∈ rest := by
          intro hmem
          have := hrest_lt _ hmem
          omega
        have h3 : ¬ ((n : Int) + 1) ∈ rest := by
          intro hmem
          have := hrest_lt _ hmem
          omega
        have h4 : ¬ ((n : Int) + 1) = i := by omega
        simp [List.mem_cons, h1, h3, h4]
    · intro j hj
      rcases hvalid j (List.mem_cons_of_mem i hj) with ⟨hj0, _⟩
      refine ⟨hj0, ?_⟩
      have hjlt := hrest_lt j hj
      have hlen : (l.eraseIdx i.toNat).length = l.length - 1 := by
        simp [List.length_eraseIdx, hitn]
      omega

/-- `pythonPops` with duplicate-free in-range indices keeps exactly the
positions outside the index list, in their original order. -/
lemma pythonPops_eq_filterIdx (l : List α) (idxs : List Int)
    (hnd : idxs.Nodup)
    (hvalid : ∀ i ∈ idxs, 0 ≤ i ∧ i < (l.length : Int)) :
    pythonPops l idxs =
      filterIdx (fun n => !(decide ((n : Int) ∈ idxs))) l := by
  unfold pythonPops
  rw [foldl_eraseIdx_eq_filterIdx (sortDesc idxs) l (sortDesc_pairwise idxs)
    ((sortDesc_perm idxs).nodup_iff.mpr hnd)
    (fun i hi => hvalid i ((sortDesc_perm idxs).mem_iff.mp hi))]
  exact filterIdx_congr l (fun n => by
    simp [(sortDesc_perm idxs).mem_iff])

lemma foldl_eraseIdx_sublist (idxs : List Int) (l : List α) :
    List.Sublist (idxs.foldl (fun acc i => acc.eraseIdx i.toNat) l) l := by
  induction idxs generalizing l with
  | nil => simp
  | cons i rest ih =>
    simp only [List.foldl_cons]
    exact (ih (l.eraseIdx i.toNat)).trans (List.eraseIdx_sublist l i.toNat)

lemma pythonPops_sublist (l : List α) (idxs : List Int) :
    List.Sublist (pythonPops l idxs) l :=
  foldl_eraseIdx_sublist (sortDesc idxs) l

lemma filterIdx_eq_filter (l : List α) (p : Nat → Bool) (q : α → Bool)
    (h : ∀ (n : Nat) (a : α), l[n]? = some a → p n = q a) :
    filterIdx p l = l.filter q := by
  induction l generalizing p with
  | nil => rfl
  | cons a l ih =>
    have h0 : p 0 = q a := h 0 a (by simp)
    simp only [filterIdx, h0, List.filter_cons]
    have hrec : filterIdx (fun n => p (n + 1)) l = l.filter q :=
      ih (fun n => p (n + 1)) (fun n b hb => h (n + 1) b (by simpa using hb))
    by_cases hq : q a = true
    · simp [hq, hrec]
    · simp only [Bool.not_eq_true] at hq
      simp [hq, hrec]

/-! ## Properties of `matchIdxsFrom` -/

lemma matchIdxsFrom_cons (pred : α → Bool) (s : Nat) (a : α) (l : List α) :
    matchIdxsFrom pred s (a :: l) =
      if pred a then ((s : Int)) :: matchIdxsFrom pred (s + 1) l
      else matchIdxsFrom pred (s + 1) l := by
  by_cases h : pred a
  · simp [matchIdxsFrom, enumIdx, List.filter_cons, h]
  · simp only [Bool.not_eq_true] at h
    simp [matchIdxsFrom, enumIdx, List.filter_cons, h]

lemma mem_matchIdxsFrom_bounds (pred : α → Bool) (s : Nat) (l : List α) :
    ∀ i ∈ matchIdxsFrom pred s l, (s : Int) ≤ i ∧ i < (s : Int) + l.length := by
  induction l generalizing s with
  | nil => simp [matchIdxsFrom, enumIdx]
  | cons a l ih =>
    intro i hi
    rw [matchIdxsFrom_cons] at hi
    by_cases h : pred a
    · rw [if_pos h] at hi
      rcases List.mem_cons.mp hi with rfl | hi
      · simp only [List.length_cons]
        omega
      · have := ih (s + 1) i hi
        simp only [List.length_cons]
        omega
    · rw [if_neg h] at hi
      have := ih (s + 1) i hi
      simp only [List.length_cons]
      omega

lemma matchIdxsFrom_pairwise (pred : α → Bool) (s : Nat) (l : List α) :
    (matchIdxsFrom pred s l).Pairwise (· < ·) := by
  induction l generalizing s with
  | nil => simp [matchIdxsFrom, enumIdx]
  | cons a l ih =>
    rw [matchIdxsFrom_cons]
    by_cases h : pred a
    · rw [if_pos h]
      refine List.Pairwise.cons ?_ (ih (s + 1))
      intro j hj
      have := (mem_matchIdxsFrom_bounds pred (s + 1) l j hj).1
      omega
    · rw [if_neg h]
      exact ih (s + 1)

lemma matchIdxsFrom_nodup (pred : α → Bool) (s : Nat) (l : List α) :
    (matchIdxsFrom pred s l).Nodup :=
  (matchIdxsFrom_pairwise pred s l).imp (fun h => ne_of_lt h)

lemma matchIdxsFrom_mem_iff (pred : α → Bool) (l : List α) :
    ∀ (s n : Nat) (a : α), l[n]? = some a →
      ((((s + n : Nat)) : Int) ∈ matchIdxsFrom pred s l ↔ pred a = true) := by
  induction l with
  | nil => intro s n a h; simp at h
  | cons b l ih =>
    intro s n a h
    rw [matchIdxsFrom_cons]
    cases n with
    | zero =>
      have hba : b = a := by simpa using h
      rw [← hba]
      by_cases hb : pred b
      · simp [hb]
      · simp only [Bool.not_eq_true] at hb
        rw [if_neg (by simp [hb])]
        constructor
        · intro hmem
          have := (mem_matchIdxsFrom_bounds pred (s + 1) l _ hmem).1
          omega
        · intro hcontra
          rw [hb] at hcontra
          exact absurd hcontra (by simp)
    | succ n =>
      simp only [List.getElem?_cons_succ] at h
      have hrec := ih (s + 1) n a h
      have hidx : ((s + (n + 1) : Nat) : Int) = (((s + 1) + n : Nat) : Int) := by
        omega
      by_cases hb : pred b
      · rw [if_pos hb]
        rw [List.mem_cons, hidx]
        have hne : ((((s + 1) + n : Nat)) : Int) ≠ (s : Int) := by omega
        simp only [hne, false_or]
        exact hrec
      · rw [if_neg (by simp [hb]), hidx]
        exact hrec

/-- Popping exactly the enumerated positions whose element satisfies
`pred`, in descending order, is the order-preserving filter keeping the
elements that do not satisfy `pred`. -/
lemma pythonPops_matchIdxs_eq_filter (pred : α → Bool) (l : List α) :
    pythonPops l (matchIdxsFrom pred 0 l) =
      l.filter (fun a => !(pred a)) := by
  rw [pythonPops_eq_filterIdx l (matchIdxsFrom pred 0 l)
    (matchIdxsFrom_nodup pred 0 l) ?_]
  · refine filterIdx_eq_filter l _ _ ?_
    intro n a hn
    have hiff := matchIdxsFrom_mem_iff pred l 0 n a hn
    simp only [Nat.zero_add] at hiff
    by_cases h : pred a
    · have hmem : ((n : Nat) : Int) ∈ matchIdxsFrom pred 0 l := hiff.mpr h
      simp [hmem, h]
    · simp only [Bool.not_eq_true] at h
      have hnot : ¬ (((n : Nat)) : Int) ∈ matchIdxsFrom pred 0 l := by
        intro hmem
        rw [hiff.mp hmem] at h
        exact absurd h (by simp)
      simp [hnot, h]
  · intro i hi
    have := mem_matchIdxsFrom_bounds pred 0 l i hi
    omega

/-! ## Characterizations of the timeline operations -/

/-- `_handle_baseline_mode` equals: drop every entry satisfying the
baseline predicate (keeping the order of the survivors), then put the new
entry first. -/
lemma handle_baseline_eq_filter (timeline : List Entry) (e : Entry) :
    handle_baseline_mode timeline e =
      e :: timeline.filter (fun x => !(isBaselineEntry x)) := by
  unfold handle_baseline_mode baselineIndices
  rw [pythonPops_matchIdxs_eq_filter]

lemma remove_removed (tl : List Entry) (idxs : List Int) (tl2 : List Entry)
    (h : remove_timeline_entries tl idxs = .removed tl2) :
    tl2 = pythonPops tl idxs := by
  unfold remove_timeline_entries at h
  split at h
  · exact absurd h (by simp)
  · split at h
    · injection h with h
      exact h.symm
    · exact absurd h (by simp)

lemma countP_set_le (l : List α) (i : Nat) (e : α) (p : α → Bool)
    (he : p e = false) : (l.set i e).countP p ≤ l.countP p := by
  induction l generalizing i with
  | nil => simp
  | cons a l ih =>
    cases i with
    | zero =>
      simp only [List.set_cons_zero, List.countP_cons, he]
      simp
    | succ i =>
      simp only [List.set_cons_succ, List.countP_cons]
      have := ih i
      omega

/-! ## Claim theorems -/

/-- C1: for every timeline store and every single successful mutating
operation (append in optimization mode, baseline replace, baseline update,
indexed removal, dirty pruning): if the store held at most one entry with
`mode = baseline` before the operation, it holds at most one after it. -/
theorem baseline_uniqueness_invariant (timeline : List Entry)
    (op : CollectorOp) (h : countBaseline timeline ≤ 1) :
    countBaseline (applyOp timeline op) ≤ 1 := by
  cases op with
  | collect d m =>
    cases m with
    | optimization =>
      unfold countBaseline at h ⊢
      simp only [applyOp, List.countP_append]
      have h2 : List.countP (fun e => decide (e.mode = Mode.baseline))
          [mkEntry d Mode.optimization] = 0 := by simp [mkEntry]
      omega
    | baseline =>
      unfold countBaseline at h ⊢
      simp only [applyOp]
      rw [handle_baseline_eq_filter, List.countP_cons]
      have h0 : List.countP (fun e => decide (e.mode = Mode.baseline))
          (timeline.filter (fun x => !(isBaselineEntry x))) = 0 := by
        rw [List.countP_eq_zero]
        intro a ha
        have hmem : isBaselineEntry a = false := by
          simpa using (List.mem_filter.mp ha).2
        intro hmode
        have htrue : isBaselineEntry a = true := by
          unfold isBaselineEntry
          rw [hmode]
          simp
        rw [htrue] at hmem
        simp at hmem
      rw [h0]
      simp [mkEntry]
    | update_baseline =>
      unfold countBaseline at h ⊢
      simp only [applyOp]
      unfold handle_update_baseline_mode
      by_cases hemp : timeline.isEmpty
      · rw [if_pos hemp, List.countP_append]
        have h2 : List.countP (fun e => decide (e.mode = Mode.baseline))
            [mkEntry d Mode.update_baseline] = 0 := by simp [mkEntry]
        omega
      · rw [if_neg hemp]
        have hle := countP_set_le timeline
          (match (enumIdx 0 timeline).find?
              (fun p => isBaselineEntry p.2) with
            | some p => p.1
            | none => 0)
          (mkEntry d Mode.update_baseline)
          (fun e => decide (e.mode = Mode.baseline)) (by simp [mkEntry])
        omega
  | removeEntries idxs =>
    unfold countBaseline at h ⊢
    simp only [applyOp]
    cases hres : remove_timeline_entries timeline idxs with
    | noEntries => simpa using h
    | invalidIndices bad => simpa using h
    | removed tl2 =>
      have h2 := remove_removed timeline idxs tl2 hres
      subst h2
      exact le_trans ((pythonPops_sublist timeline idxs).countP_le _) h
  | cleanExperimental =>
    unfold countBaseline at h ⊢
    simp only [applyOp]
    unfold clean_experimental_entries
    by_cases h1 : timeline.isEmpty
    · rw [if_pos h1]; exact h
    · rw [if_neg h1]
      by_cases h2 : (matchIdxsFrom
          (fun e => containsSub "-dirty".toList e.git_commit) 0
          timeline).isEmpty
      · rw [if_pos h2]; exact h
      · rw [if_neg h2]
        cases hres : remove_timeline_entries timeline
            (matchIdxsFrom
              (fun e => containsSub "-dirty".toList e.git_commit) 0
              timeline) with
        | noEntries => exact h
        | invalidIndices bad => exact h
        | removed tl2 =>
          have h3 := remove_removed _ _ _ hres
          subst h3
          exact le_trans ((pythonPops_sublist _ _).countP_le _) h

/-- Witness for C1 at a concrete store and operation. -/
theorem baseline_uniqueness_invariant_witness :
    countBaseline [] ≤ 1 ∧
      countBaseline (applyOp []
        (CollectorOp.collect ⟨['x'], ['c']⟩ Mode.baseline)) ≤ 1 :=
  ⟨by decide, baseline_uniqueness_invariant [] _ (by decide)⟩

/-- C2: `replace_baseline` removes exactly the existing entries whose mode
is baseline or whose label case-insensitively contains "baseline" (all of
them), inserts the incoming entry at index 0, and preserves the relative
order of the survivors; in particular on `[A(optimization), B(baseline)]`
the result of replacing with `C` is `[C, A]`. -/
theorem replace_baseline_spec :
    (∀ (timeline : List Entry) (e : Entry),
      handle_baseline_mode timeline e =
        e :: timeline.filter (fun x => !(isBaselineEntry x))) ∧
    handle_baseline_mode
      [⟨Mode.optimization, ['A'], []⟩, ⟨Mode.baseline, ['B'], []⟩]
      ⟨Mode.baseline, ['C'], []⟩ =
      [⟨Mode.baseline, ['C'], []⟩, ⟨Mode.optimization, ['A'], []⟩] :=
  ⟨handle_baseline_eq_filter, by decide⟩

/-- Specification-side description of index removal: keep exactly the
entries whose original position is outside the index set, in their
original order. -/
def keepOutsideIdxs (timeline : List Entry) (indices : List Int) :
    List Entry :=
  filterIdx (fun n => !(decide ((n : Int) ∈ indices))) timeline

/-- C4 counterexample: on an empty store, removal index 0 lies outside
`[0, 0)`, yet the code takes the no-entries early exit instead of the
index-range rejection the claim requires. -/
theorem remove_empty_store_counterexample :
    remove_timeline_entries [] [0] = RemoveResult.noEntries ∧
      (remove_timeline_entries [] [0]).isInvalid = false := by
  constructor
  · rfl
  · rfl

/-- C4 (amended): on a non-empty store, a request containing any
out-of-range index is rejected whole with the index-range error (and
nothing is removed); a duplicate-free all-in-range request removes exactly
the entries at the requested original positions, the survivors keep their
relative order, and the result is invariant under reordering the
indices.  (An empty store takes a no-entries early exit instead, see the
counterexample.) -/
theorem remove_timeline_entries_spec (timeline : List Entry)
    (indices : List Int) (hne : timeline ≠ []) :
    ((indices.filter (fun i => decide (i < 0) ||
        decide ((timeline.length : Int) ≤ i))) ≠ [] →
      remove_timeline_entries timeline indices =
        .invalidIndices (indices.filter (fun i => decide (i < 0) ||
          decide ((timeline.length : Int) ≤ i)))) ∧
    (indices.Nodup →
      (∀ i ∈ indices, 0 ≤ i ∧ i < (timeline.length : Int)) →
      remove_timeline_entries timeline indices =
        .removed (keepOutsideIdxs timeline indices) ∧
      ∀ indices2, List.Perm indices2 indices →
        remove_timeline_entries timeline indices2 =
          remove_timeline_entries timeline indices) := by
  have hE : ¬ (timeline.isEmpty = true) := by
    intro hcon
    exact hne (List.isEmpty_iff.mp hcon)
  have hmain : ∀ idl : List Int, idl.Nodup →
      (∀ i ∈ idl, 0 ≤ i ∧ i < (timeline.length : Int)) →
      remove_timeline_entries timeline idl =
        .removed (keepOutsideIdxs timeline idl) := by
    intro idl hnd hvalid
    have hfil : idl.filter (fun i => decide (i < 0) ||
        decide ((timeline.length : Int) ≤ i)) = [] := by
      rw [List.filter_eq_nil_iff]
      intro i hi
      rcases hvalid i hi with ⟨h0, hlen⟩
      simp only [Bool.or_eq_true, decide_eq_true_eq, not_or]
      omega
    unfold remove_timeline_entries
    rw [if_neg hE, if_pos (by rw [hfil]; rfl)]
    rw [pythonPops_eq_filterIdx timeline idl hnd hvalid]
    rfl
  refine ⟨?_, ?_⟩
  · intro hbad
    unfold remove_timeline_entries
    rw [if_neg hE, if_neg ?_]
    intro hcon
    exact hbad (List.isEmpty_iff.mp hcon)
  · intro hnd hvalid
    refine ⟨hmain indices hnd hvalid, ?_⟩
    intro indices2 hperm
    have hnd2 : indices2.Nodup := hperm.nodup_iff.mpr hnd
    have hvalid2 : ∀ i ∈ indices2, 0 ≤ i ∧ i < (timeline.length : Int) :=
      fun i hi => hvalid i (hperm.mem_iff.mp hi)
    rw [hmain indices2 hnd2 hvalid2, hmain indices hnd hvalid]
    congr 1
    unfold keepOutsideIdxs
    exact filterIdx_congr timeline (fun n => by simp [hperm.mem_iff])

/-- Witness for C4 at a concrete store: removing `{2, 0}` from a
three-entry store keeps exactly the middle entry, and processing the
indices in the opposite order gives the same result. -/
theorem remove_timeline_entries_spec_witness :
    remove_timeline_entries
        [⟨Mode.optimization, ['a'], []⟩, ⟨Mode.optimization, ['b'], []⟩,
         ⟨Mode.optimization, ['c'], []⟩] [2, 0] =
      RemoveResult.removed [⟨Mode.optimization, ['b'], []⟩] ∧
    remove_timeline_entries
        [⟨Mode.optimization, ['a'], []⟩, ⟨Mode.optimization, ['b'], []⟩,
         ⟨Mode.optimization, ['c'], []⟩] [0, 2] =
      remove_timeline_entries
        [⟨Mode.optimization, ['a'], []⟩, ⟨Mode.optimization, ['b'], []⟩,
         ⟨Mode.optimization, ['c'], []⟩] [2, 0] := by
  have h := remove_timeline_entries_spec
    [⟨Mode.optimization, ['a'], []⟩, ⟨Mode.optimization, ['b'], []⟩,
     ⟨Mode.optimization, ['c'], []⟩] [2, 0] (by decide)
  have h2 := h.2 (by decide) (by decide)
  refine ⟨?_, h2.2 [0, 2] (by decide)⟩
  rw [h2.1]
  decide

/-- Branch structure of `_format_change_indicator` on a time metric with
nonzero baseline and a real change: faster changes are gray below the 15%
band and green at or above it, slower ones yellow below and red at or
above (the source's 15-30 and over-30 red branches coincide). -/
lemma format_change_indicator_time (current baseline : ℚ)
    (metricName : List Char) (hb : baseline ≠ 0) (hne : current ≠ baseline)
    (ht : isTimeMetric metricName = true) :
    format_change_indicator current baseline metricName =
      if current - baseline < 0 then
        if |(current - baseline) / baseline * 100| < 15 then
          .change .gray .down (current - baseline)
            ((current - baseline) / baseline * 100)
        else
          .change .green .down (current - baseline)
            ((current - baseline) / baseline * 100)
      else
        if |(current - baseline) / baseline * 100| < 15 then
          .change .yellow .up (current - baseline)
            ((current - baseline) / baseline * 100)
        else
          .change .red .up (current - baseline)
            ((current - baseline) / baseline * 100) := by
  unfold format_change_indicator
  rw [if_neg hb, if_neg hne]
  simp only [ht, if_true, ite_self]

/-- C3 counterexample: with the (negative) baseline -100 and candidate
-120 on a time metric, the computed percent delta is +20 — in the band the
claim labels REGRESSED — yet the code's `abs_diff < 0` test calls the run
faster and colors it green, i.e. IMPROVED. -/
theorem classification_bands_counterexample :
    ((-120 : ℚ) - (-100)) / (-100) * 100 = 20 ∧ (15 : ℚ) ≤ 20 ∧
      classificationOf (format_change_indicator (-120) (-100)
        "AtlasManager.generateAtlasSumMs".toList) =
        Classification.improved ∧
      classificationOf (format_change_indicator (-120) (-100)
        "AtlasManager.generateAtlasSumMs".toList) ≠
        Classification.regressed := by
  have heval : format_change_indicator (-120) (-100)
      "AtlasManager.generateAtlasSumMs".toList =
      ChangeIndicator.change Color.green Arrow.down (-20) 20 := by
    rw [format_change_indicator_time (-120) (-100) _ (by norm_num)
      (by norm_num) (by decide)]
    norm_num
  refine ⟨by norm_num, by norm_num, ?_, ?_⟩
  · rw [heval]; rfl
  · rw [heval]; decide

/-- C3 (amended, the baseline must be positive rather than merely
nonzero): for a time metric with positive baseline `b` and candidate `c`,
the indicator carries `percent_delta = (c - b) / b * 100`, and the
classification is improved at or below -15, noise strictly between -15
and 15, regressed at or above 15. -/
theorem classification_bands (metricName : List Char)
    (ht : isTimeMetric metricName = true) (b c : ℚ) (hb : 0 < b) :
    percentOf (format_change_indicator c b metricName) =
        some ((c - b) / b * 100) ∧
    ((c - b) / b * 100 ≤ -15 →
      classificationOf (format_change_indicator c b metricName) =
        Classification.improved) ∧
    (-15 < (c - b) / b * 100 ∧ (c - b) / b * 100 < 15 →
      classificationOf (format_change_indicator c b metricName) =
        Classification.noise) ∧
    (15 ≤ (c - b) / b * 100 →
      classificationOf (format_change_indicator c b metricName) =
        Classification.regressed) := by
  have hb0 : b ≠ 0 := ne_of_gt hb
  by_cases heq : c = b
  · subst heq
    have hz : ((c - c) / c * 100 : ℚ) = 0 := by
      rw [sub_self, zero_div, zero_mul]
    unfold format_change_indicator
    rw [if_neg hb0, if_pos rfl, hz]
    refine ⟨rfl, ?_, ?_, ?_⟩
    · intro hcon; norm_num at hcon
    · intro _; rfl
    · intro hcon; norm_num at hcon
  · rw [format_change_indicator_time c b metricName hb0 heq ht]
    have hsub : c - b ≠ 0 := sub_ne_zero.mpr heq
    have hsignneg : c - b < 0 → (c - b) / b * 100 < 0 := fun h =>
      mul_neg_of_neg_of_pos (div_neg_of_neg_of_pos h hb) (by norm_num)
    have hsignpos : ¬ (c - b < 0) → 0 < (c - b) / b * 100 := by
      intro h
      have h2 : 0 < c - b := lt_of_le_of_ne (not_lt.mp h) (Ne.symm hsub)
      exact mul_pos (div_pos h2 hb) (by norm_num)
    by_cases hlt : c - b < 0
    · by_cases habs : |(c - b) / b * 100| < 15
      · rw [if_pos hlt, if_pos habs]
        rcases abs_lt.mp habs with ⟨hlo, hhi⟩
        exact ⟨rfl, fun hcon => by linarith, fun _ => rfl,
          fun hcon => by linarith⟩
      · rw [if_pos hlt, if_neg habs]
        have h15 : (c - b) / b * 100 ≤ -15 := by
          have := not_lt.mp habs
          have hneg := hsignneg hlt
          rw [abs_of_neg hneg] at this
          linarith
        exact ⟨rfl, fun _ => rfl, fun hcon => by linarith,
          fun hcon => by linarith⟩
    · by_cases habs : |(c - b) / b * 100| < 15
      · rw [if_neg hlt, if_pos habs]
        rcases abs_lt.mp habs with ⟨hlo, hhi⟩
        exact ⟨rfl, fun hcon => by linarith, fun _ => rfl,
          fun hcon => by linarith⟩
      · rw [if_neg hlt, if_neg habs]
        have h15 : 15 ≤ (c - b) / b * 100 := by
          have := not_lt.mp habs
          have hpos := hsignpos hlt
          rw [abs_of_pos hpos] at this
          linarith
        exact ⟨rfl, fun hcon => by linarith, fun hcon => by linarith,
          fun _ => rfl⟩

/-- Witness for C3 at the spec's scenario: time metric with baseline 100;
candidate 80 is improved, 95 is noise, 120 is regressed. -/
theorem classification_bands_witness :
    classificationOf (format_change_indicator 80 100
        "AtlasManager.generateAtlasSumMs".toList) =
      Classification.improved ∧
    classificationOf (format_change_indicator 95 100
        "AtlasManager.generateAtlasSumMs".toList) =
      Classification.noise ∧
    classificationOf (format_change_indicator 120 100
        "AtlasManager.generateAtlasSumMs".toList) =
      Classification.regressed := by
  refine ⟨?_, ?_, ?_⟩
  · exact (classification_bands _ (by decide) 100 80 (by norm_num)).2.1
      (by norm_num)
  · exact (classification_bands _ (by decide) 100 95 (by norm_num)).2.2.1
      (by constructor <;> norm_num)
  · exact (classification_bands _ (by decide) 100 120 (by norm_num)).2.2.2
      (by norm_num)

/-- C7: a zero baseline never reaches the division: the tracker's change
indicator takes the early blank return (classified noise, no percent
reported) and the metrics-table cell is the plain uncolored value, for
every candidate value and metric name. -/
theorem zero_baseline_noise (current : ℚ) (metricName : List Char) :
    format_change_indicator current 0 metricName = ChangeIndicator.empty ∧
    classificationOf (format_change_indicator current 0 metricName) =
      Classification.noise ∧
    percentOf (format_change_indicator current 0 metricName) = none ∧
    format_value_with_change current (some 0) = TableCell.plain current ∧
    format_value_with_change current none = TableCell.plain current := by
  have h1 : format_change_indicator current 0 metricName =
      ChangeIndicator.empty := by
    unfold format_change_indicator
    rw [if_pos rfl]
  refine ⟨h1, by rw [h1]; rfl, by rw [h1]; rfl, ?_, ?_⟩
  · unfold format_value_with_change
    by_cases hc : current = 0
    · rw [if_pos hc]
    · rw [if_neg hc]
      simp
  · unfold format_value_with_change
    by_cases hc : current = 0
    · rw [if_pos hc]
    · rw [if_neg hc]

/-- C8 counterexample: comparing a snapshot with itself on a metric whose
value is 0 hits the zero-baseline guard: the indicator is blank and
reports no percent delta at all — not a percent delta of 0. -/
theorem self_compare_zero_counterexample :
    percentOf (format_change_indicator 0 0
      "AtlasManager.generateAtlasSumMs".toList) = none ∧
    percentOf (format_change_indicator 0 0
      "AtlasManager.generateAtlasSumMs".toList) ≠ some 0 := by
  have h : format_change_indicator 0 0
      "AtlasManager.generateAtlasSumMs".toList = ChangeIndicator.empty := by
    unfold format_change_indicator
    rw [if_pos rfl]
  rw [h]
  exact ⟨rfl, by simp [percentOf]⟩

/-- C8 (amended): comparing any snapshot value against itself is
classified noise for every metric; the percent delta is 0 for nonzero
values and omitted entirely for the value 0. -/
theorem self_compare_noise (v : ℚ) (metricName : List Char) :
    classificationOf (format_change_indicator v v metricName) =
      Classification.noise ∧
    percentOf (format_change_indicator v v metricName) =
      (if v = 0 then none else some 0) := by
  by_cases hv : v = 0
  · have h : format_change_indicator v v metricName =
        ChangeIndicator.empty := by
      unfold format_change_indicator
      rw [if_pos hv]
    rw [h, if_pos hv]
    exact ⟨rfl, rfl⟩
  · have h : format_change_indicator v v metricName =
        ChangeIndicator.zeroChange := by
      unfold format_change_indicator
      rw [if_neg hv, if_pos rfl]
    rw [h, if_neg hv]
    exact ⟨rfl, rfl⟩

/-- C9: on the spec's three device contexts the checker flags exactly one
inconsistency — the context at index 2, on the model field — and nothing
for index 1, whose 10 MHz frequency difference sits inside the 100 MHz
tolerance. -/
theorem device_consistency_scenario :
    check_device_consistency
      [⟨"Pixel6".toList, "google".toList, 33, 8, 2400000000⟩,
       ⟨"Pixel6".toList, "google".toList, 33, 8, 2410000000⟩,
       ⟨"Pixel4".toList, "google".toList, 30, 8, 2000000000⟩] =
      [⟨2, DiffField.model⟩] := by
  decide

/-- The scan of `_get_metric_value` returns the median of the first
benchmark matching both the name and the metric, and 0 otherwise. -/
lemma get_metric_value_go_eq (benchmarkName metricName : String) :
    ∀ bs : List TBenchmark,
      get_metric_value_go benchmarkName metricName bs =
        match bs.find? (fun b => nameMatches b benchmarkName &&
            (lookupKey (b.metrics.getD []) metricName).isSome) with
        | some b =>
          match lookupKey (b.metrics.getD []) metricName with
          | some r => r.median.getD 0
          | none => 0
        | none => 0 := by
  intro bs
  induction bs with
  | nil => rfl
  | cons b rest ih =>
    by_cases hname : nameMatches b benchmarkName
    · cases hlook : lookupKey (b.metrics.getD []) metricName with
      | some r =>
        have hp : (nameMatches b benchmarkName &&
            (lookupKey (b.metrics.getD []) metricName).isSome) = true := by
          rw [hname, hlook]
          rfl
        rw [@List.find?_cons_of_pos _ (fun b => nameMatches b benchmarkName &&
          (lookupKey (b.metrics.getD []) metricName).isSome) b rest hp]
        unfold get_metric_value_go
        rw [if_pos hname, hlook]
        show r.median.getD 0 =
          match lookupKey (b.metrics.getD []) metricName with
          | some r => r.median.getD 0
          | none => 0
        rw [hlook]
      | none =>
        have hp : ¬ ((nameMatches b benchmarkName &&
            (lookupKey (b.metrics.getD []) metricName).isSome) = true) := by
          rw [hlook]
          simp
        rw [@List.find?_cons_of_neg _ (fun b => nameMatches b benchmarkName &&
          (lookupKey (b.metrics.getD []) metricName).isSome) b rest hp]
        unfold get_metric_value_go
        rw [if_pos hname, hlook]
        exact ih
    · have hnf : nameMatches b benchmarkName = false := by
        cases hcase : nameMatches b benchmarkName
        · rfl
        · exact absurd hcase hname
      have hp : ¬ ((nameMatches b benchmarkName &&
          (lookupKey (b.metrics.getD []) metricName).isSome) = true) := by
        rw [hnf]
        simp
      rw [@List.find?_cons_of_neg _ (fun b => nameMatches b benchmarkName &&
        (lookupKey (b.metrics.getD []) metricName).isSome) b rest hp]
      unfold get_metric_value_go
      rw [if_neg hname]
      exact ih

/-- C10: the tracker's metric lookup is a total function: it returns the
median (defaulted to 0 when the median field is absent) of the first
benchmark whose name matches and which contains the metric, and 0 when no
benchmark with that name holds the metric. -/
theorem get_metric_value_total (data : TRawData)
    (benchmarkName metricName : String) :
    get_metric_value data benchmarkName metricName =
      match data.benchmarks.find? (fun b =>
          nameMatches b benchmarkName &&
            (lookupKey (b.metrics.getD []) metricName).isSome) with
      | some b =>
        match lookupKey (b.metrics.getD []) metricName with
        | some r => r.median.getD 0
        | none => 0
      | none => 0 := by
  exact get_metric_value_go_eq benchmarkName metricName data.benchmarks

/-- C5 counterexample: the metrics-table loader catches the parse failure
of corrupt persisted data and silently returns the empty timeline instead
of failing with a corrupt-data error. -/
theorem table_load_corrupt_counterexample :
    table_load_timeline PersistedTimeline.malformed = Except.ok [] ∧
      table_load_timeline PersistedTimeline.malformed ≠
        Except.error LoadErr.corruptData := by
  refine ⟨rfl, ?_⟩
  intro h
  exact Except.noConfusion h

/-- C5 (amended): the collector's `_load_timeline` returns the empty
timeline when no persisted data exists, surfaces the parse error on
corrupt data, and returns parsed entries untouched; the metrics-table
`load_timeline`, by contrast, silently returns the empty timeline on
corrupt data. -/
theorem load_timeline_spec :
    collector_load_timeline PersistedTimeline.missing = Except.ok [] ∧
    collector_load_timeline PersistedTimeline.malformed =
      Except.error LoadErr.corruptData ∧
    (∀ entries, collector_load_timeline (.wellFormed entries) =
      Except.ok entries) ∧
    table_load_timeline PersistedTimeline.malformed = Except.ok [] :=
  ⟨rfl, rfl, fun _ => rfl, rfl⟩

/-- C6: a raw result with no benchmarks (so no test named
`atlasGenerationThroughZoomInteractions`) has extraction return the
found-false snapshot with empty metric maps and no exception — but
collection then aborts: the not-found dict stores its empty map under
`"atlas_metrics"` while `collect_benchmark_result` subscripts
`zoom_metrics["profile_metrics"]`, a `KeyError`. -/
theorem missing_test_collect_keyerror :
    extract_test_metrics ⟨[]⟩ "atlasGenerationThroughZoomInteractions" =
      [("found", MVal.bool false), ("atlas_metrics", MVal.dict []),
       ("frame_metrics", MVal.dict []), ("memory_metrics", MVal.dict [])] ∧
    dget (extract_test_metrics ⟨[]⟩
      "atlasGenerationThroughZoomInteractions") "profile_metrics" = none ∧
    collect_entry ⟨[]⟩ = Except.error (PyErr.keyError "profile_metrics") :=
  ⟨rfl, rfl, rfl⟩

end Lumina
